import Mathlib

/-
Verification of the per-connection protocol handler of
`gcn_classic_to_kafka/socket.py` (GCN classic → Kafka bridge).

The handler is embedded shallowly:

* a byte stream is a `List Byte` of the bytes the peer sends before
  closing the connection (a finite list models a closed stream);
* `readexactly n s` models `asyncio.StreamReader.readexactly(n)`: it
  consumes exactly `n` bytes from the front of `s`, and when the stream
  ends first it fails with `incompleteRead part expected`, carrying the
  bytes that had arrived (`asyncio.IncompleteReadError`); a negative
  count fails with `valueError`, as in asyncio;
* `int4_unpack` models `struct.Struct("!l").unpack`, a signed 32-bit
  big-endian decode;
* `read` is the inner `read()` coroutine of `client_connected_cb`;
* external collaborators are parameters: a VOEvent XML parser
  `fromstring` (`lxml.etree.fromstring`, fallible), a notice-type
  extractor `gnt` (`gcn.handlers.get_notice_type`), the classifier
  `nts` (`notice_type_int_to_str`) and topic map `tfn`
  (`topic_for_notice_type_str`) from the sibling `common` module;
* observable effects — Prometheus counter increments and
  `producer.produce` / `producer.poll` calls — are threaded through an
  explicit `Effects` record; `process` returns the effects even when it
  raises, since the real counters are global and survive the exception;
* the `while True` loop of `client_connected_cb` is `runLoop`, run on
  fuel (every iteration consumes at least 168 bytes of the finite
  stream, so fuel bounds nothing interesting away); the `finally:`
  block always closes the writer, recorded in `ConnResult`;
* `asyncio.wait_for(read(), timeout)` is modelled in a timed variant
  where each byte carries an arrival time: the frame read started at
  `t0` times out iff the arrival time of the frame's last byte exceeds
  `t0 + timeout`.
-/

set_option maxRecDepth 100000

namespace GCN

/-- A byte on the wire, modelled as a natural number. -/
abbrev Byte := Nat

/-- `bin_len = 160`, the fixed size of the binary segment. -/
def bin_len : Nat := 160

/-- `int4 = struct.Struct("!l")`: its size is 4 bytes. -/
def int4_size : Nat := 4

/-- Signed big-endian 32-bit decode of a 4-byte buffer, modelling
`int4.unpack` / `int4.unpack_from`.  (2147483648 = 2^31,
4294967296 = 2^32.)  Buffers of any other length never reach this
function along `read`'s paths. -/
def int4_unpack (bs : List Byte) : Int :=
  match bs with
  | [b0, b1, b2, b3] =>
    let u : Nat := ((b0 * 256 + b1) * 256 + b2) * 256 + b3
    if u < 2147483648 then (u : Int) else (u : Int) - 4294967296
  | _ => 0

/-- The 4-byte big-endian encoding of a length, as the upstream sender
produces in front of each variable-length segment. -/
def be4 (n : Nat) : List Byte :=
  [n / 16777216 % 256, n / 65536 % 256, n / 256 % 256, n % 256]

/-- Exceptions that can escape the handler.  `incompleteRead` is
`asyncio.IncompleteReadError` (with the bytes that had arrived and the
expected count), `valueError` is the `ValueError` that `readexactly`
raises on a negative count, `xmlSyntaxError` is `lxml.etree`'s parse
failure, `timeoutError` is `asyncio.TimeoutError` from `wait_for`. -/
inductive SocketError where
  | incompleteRead (part : List Byte) (expected : Nat)
  | valueError
  | xmlSyntaxError
  | timeoutError
  deriving DecidableEq, Repr

/-- `reader.readexactly(n)` on a stream that will deliver exactly the
bytes `s` and then close: consume `n` bytes, or fail with
`IncompleteReadError` carrying everything that arrived. -/
def readexactly (n : Nat) (s : List Byte) : Except SocketError (List Byte × List Byte) :=
  if s.length < n then .error (.incompleteRead s n)
  else .ok (s.take n, s.drop n)

/-- `readexactly` at a possibly negative count, as produced by the
signed length decode: asyncio raises `ValueError` when `n < 0`. -/
def readexactlyI (n : Int) (s : List Byte) : Except SocketError (List Byte × List Byte) :=
  if n < 0 then .error .valueError
  else readexactly n.toNat s

/-- The inner `read()` coroutine: 160-byte binary block, 4-byte length
plus VOEvent segment, 4-byte length plus text segment.  Returns the
three segments and the unconsumed rest of the stream. -/
def read (s : List Byte) :
    Except SocketError ((List Byte × List Byte × List Byte) × List Byte) :=
  match readexactly bin_len s with
  | .error e => .error e
  | .ok (bin_data, s1) =>
    match readexactly int4_size s1 with
    | .error e => .error e
    | .ok (lb1, s2) =>
      match readexactlyI (int4_unpack lb1) s2 with
      | .error e => .error e
      | .ok (voe_data, s3) =>
        match readexactly int4_size s3 with
        | .error e => .error e
        | .ok (lb2, s4) =>
          match readexactlyI (int4_unpack lb2) s4 with
          | .error e => .error e
          | .ok (txt_data, s5) => .ok ((bin_data, voe_data, txt_data), s5)

/-- Heartbeat notice type codes.  The numeric values stand in for the
constants `gcn.NoticeType.IM_ALIVE`, `VOE_11_IM_ALIVE`,
`VOE_20_IM_ALIVE` of the external `gcn` package; they are used only as
three distinct integer identifiers. -/
def IM_ALIVE : Int := 3

/-- See `IM_ALIVE`. -/
def VOE_11_IM_ALIVE : Int := 51845

/-- See `IM_ALIVE`. -/
def VOE_20_IM_ALIVE : Int := 51846

/-- `ignore_notice_types`, the fixed heartbeat set. -/
def ignore_notice_types : List Int := [IM_ALIVE, VOE_11_IM_ALIVE, VOE_20_IM_ALIVE]

/-- Observable side effects of the handler: the `metrics.iamalive`
counter, the `metrics.received` labelled counter (label arguments, in
order of increments), the mismatch warnings logged, the
`producer.produce(topic, data)` submissions in order, and the number of
`producer.poll(0)` calls. -/
structure Effects where
  iamalive : Nat
  received : List (Int × String × String)
  warned : List (Int × Int)
  produced : List (String × List Byte)
  polled : Nat
  deriving DecidableEq, Repr

/-- All-zero initial effects at connection start. -/
def Effects.init : Effects := ⟨0, [], [], [], 0⟩

/-- The `for notice_type_int, data, flavor in [...]` loop body: per
triple, increment `metrics.received` with labels
`(notice_type_int, notice_type_str, flavor)` and submit
`producer.produce(topic, data)`. -/
def publishTriples (nts : Int → String) (tfn : String → String → String)
    (triples : List (Int × List Byte × String)) (e : Effects) : Effects :=
  triples.foldl (fun acc t =>
    let notice_type_str := nts t.1
    { acc with
      received := acc.received ++ [(t.1, notice_type_str, t.2.2)],
      produced := acc.produced ++ [(tfn notice_type_str t.2.2, t.2.1)] }) e

/-- The body of `process()` after a frame has been read: increment
`iamalive`, decode the binary type code, return early on heartbeats,
parse the VOEvent, warn on a type mismatch, publish the three flavors,
poll the producer.  Returns `some err` when an exception propagates
(XML parse failure), together with the effects performed up to that
point. -/
def processBody {Doc : Type}
    (fromstring : List Byte → Except SocketError Doc) (gnt : Doc → Int)
    (nts : Int → String) (tfn : String → String → String)
    (bin_data voe_data txt_data : List Byte) (e : Effects) :
    Option SocketError × Effects :=
  let e1 : Effects := { e with iamalive := e.iamalive + 1 }
  let bin_notice_type : Int := int4_unpack (bin_data.take 4)
  if bin_notice_type ∈ ignore_notice_types then
    (none, e1)
  else
    match fromstring voe_data with
    | .error err => (some err, e1)
    | .ok voe =>
      let voe_notice_type : Int := gnt voe
      let e2 : Effects :=
        if bin_notice_type = voe_notice_type then e1
        else { e1 with warned := e1.warned ++ [(bin_notice_type, voe_notice_type)] }
      let txt_notice_type : Int := bin_notice_type
      let e3 : Effects := publishTriples nts tfn
        [(bin_notice_type, bin_data, "binary"),
         (voe_notice_type, voe_data, "voevent"),
         (txt_notice_type, txt_data, "text")] e2
      (none, { e3 with polled := e3.polled + 1 })

/-- One call of `process()`: read a frame, then run the body.  On
success returns the unconsumed stream; on failure the exception,
together with the effects already performed. -/
def process {Doc : Type}
    (fromstring : List Byte → Except SocketError Doc) (gnt : Doc → Int)
    (nts : Int → String) (tfn : String → String → String)
    (s : List Byte) (e : Effects) :
    Except SocketError (List Byte) × Effects :=
  match read s with
  | .error err => (.error err, e)
  | .ok ((bin_data, voe_data, txt_data), s1) =>
    match processBody fromstring gnt nts tfn bin_data voe_data txt_data e with
    | (none, e') => (.ok s1, e')
    | (some err, e') => (.error err, e')

/-- The `while True: await process()` loop, on fuel.  It can only stop
with the exception that ended it (a finite stream always ends in one);
`none` means the fuel ran out first. -/
def runLoop {Doc : Type}
    (fromstring : List Byte → Except SocketError Doc) (gnt : Doc → Int)
    (nts : Int → String) (tfn : String → String → String) :
    Nat → List Byte → Effects → Option (SocketError × Effects)
  | 0, _, _ => none
  | fuel + 1, s, e =>
    match process fromstring gnt nts tfn s e with
    | (.ok s1, e1) => runLoop fromstring gnt nts tfn fuel s1 e1
    | (.error err, e1) => some (err, e1)

/-- Connection lifecycle states of the handler. -/
inductive ConnState where
  | AwaitingFrame
  | Closed
  deriving DecidableEq, Repr

/-- Outcome of one connection: the exception that ended the loop, the
accumulated effects, the terminal state, and whether the `finally:`
block closed the writer. -/
structure ConnResult where
  err : SocketError
  effects : Effects
  state : ConnState
  writerClosed : Bool
  deriving DecidableEq, Repr

/-- `client_connected_cb`: run the loop from fresh effects; whatever
exception ends it, the `finally:` block closes the writer and the
connection is `Closed`. -/
def client_connected_cb {Doc : Type}
    (fromstring : List Byte → Except SocketError Doc) (gnt : Doc → Int)
    (nts : Int → String) (tfn : String → String → String)
    (fuel : Nat) (s : List Byte) : Option ConnResult :=
  match runLoop fromstring gnt nts tfn fuel s Effects.init with
  | some (err, e) => some ⟨err, e, ConnState.Closed, true⟩
  | none => none

/-- The wire encoding of one frame, as the upstream sender produces it:
header, length-prefixed VOEvent segment, length-prefixed text
segment. -/
def encodeFrame (H V X : List Byte) : List Byte :=
  H ++ be4 V.length ++ V ++ be4 X.length ++ X

/-- A 160-byte header whose leading 4 bytes encode the given type
code. -/
def mkHeader (c : Nat) : List Byte := be4 c ++ List.replicate 156 0

/-! ## Basic lemmas about the frame reader -/

theorem be4_length (n : Nat) : (be4 n).length = 4 := rfl

theorem mkHeader_length (c : Nat) : (mkHeader c).length = 160 := by
  simp [mkHeader, be4]

theorem readexactly_append (n : Nat) (a b : List Byte) (h : a.length = n) :
    readexactly n (a ++ b) = .ok (a, b) := by
  have hlen : ¬ (a ++ b).length < n := by
    rw [List.length_append, h]; omega
  rw [readexactly, if_neg hlen, List.take_left' h, List.drop_left' h]

theorem readexactly_short (n : Nat) (s : List Byte) (h : s.length < n) :
    readexactly n s = .error (.incompleteRead s n) := by
  rw [readexactly, if_pos h]

theorem readexactlyI_natCast (n : Nat) (s : List Byte) :
    readexactlyI (n : Int) s = readexactly n s := by
  simp [readexactlyI]

theorem int4_unpack_be4 (n : Nat) (h : n < 2147483648) :
    int4_unpack (be4 n) = (n : Int) := by
  have h1 : ((n / 16777216 % 256 * 256 + n / 65536 % 256) * 256 + n / 256 % 256) * 256
      + n % 256 = n := by omega
  simp only [be4, int4_unpack]
  rw [h1, if_pos h]

/-- With in-range lengths, reading an encoded frame yields exactly its
three segments and consumes exactly its bytes. -/
theorem read_encode (H V X r : List Byte) (hH : H.length = 160)
    (hV : V.length < 2147483648) (hX : X.length < 2147483648) :
    read (encodeFrame H V X ++ r) = .ok ((H, V, X), r) := by
  have e1 : encodeFrame H V X ++ r
      = H ++ (be4 V.length ++ (V ++ (be4 X.length ++ (X ++ r)))) := by
    simp [encodeFrame]
  rw [e1, read, readexactly_append bin_len H _ hH]
  dsimp only
  rw [readexactly_append int4_size (be4 V.length) _ (be4_length _)]
  dsimp only
  rw [int4_unpack_be4 V.length hV, readexactlyI_natCast,
    readexactly_append V.length V _ rfl]
  dsimp only
  rw [readexactly_append int4_size (be4 X.length) _ (be4_length _)]
  dsimp only
  rw [int4_unpack_be4 X.length hX, readexactlyI_natCast,
    readexactly_append X.length X _ rfl]

/-! ## Lemmas about the processing body -/

theorem processBody_heartbeat {Doc : Type}
    (fs : List Byte → Except SocketError Doc) (gnt : Doc → Int)
    (nts : Int → String) (tfn : String → String → String)
    (bin voe txt : List Byte) (e : Effects)
    (hmem : int4_unpack (bin.take 4) ∈ ignore_notice_types) :
    processBody fs gnt nts tfn bin voe txt e =
      (none, { e with iamalive := e.iamalive + 1 }) := by
  simp only [processBody]
  rw [if_pos hmem]

theorem processBody_parse_error {Doc : Type}
    (fs : List Byte → Except SocketError Doc) (gnt : Doc → Int)
    (nts : Int → String) (tfn : String → String → String)
    (bin voe txt : List Byte) (e : Effects) (err : SocketError)
    (hmem : int4_unpack (bin.take 4) ∉ ignore_notice_types)
    (hparse : fs voe = .error err) :
    processBody fs gnt nts tfn bin voe txt e =
      (some err, { e with iamalive := e.iamalive + 1 }) := by
  simp only [processBody]
  rw [if_neg hmem, hparse]

theorem processBody_publish {Doc : Type}
    (fs : List Byte → Except SocketError Doc) (gnt : Doc → Int)
    (nts : Int → String) (tfn : String → String → String)
    (bin voe txt : List Byte) (e : Effects) (doc : Doc)
    (hmem : int4_unpack (bin.take 4) ∉ ignore_notice_types)
    (hparse : fs voe = .ok doc) :
    processBody fs gnt nts tfn bin voe txt e =
      (none,
       { iamalive := e.iamalive + 1,
         received := e.received ++
           [(int4_unpack (bin.take 4), nts (int4_unpack (bin.take 4)), "binary"),
            (gnt doc, nts (gnt doc), "voevent"),
            (int4_unpack (bin.take 4), nts (int4_unpack (bin.take 4)), "text")],
         warned := e.warned ++
           (if int4_unpack (bin.take 4) = gnt doc then []
            else [(int4_unpack (bin.take 4), gnt doc)]),
         produced := e.produced ++
           [(tfn (nts (int4_unpack (bin.take 4))) "binary", bin),
            (tfn (nts (gnt doc)) "voevent", voe),
            (tfn (nts (int4_unpack (bin.take 4))) "text", txt)],
         polled := e.polled + 1 }) := by
  simp only [processBody, publishTriples, List.foldl]
  rw [if_neg hmem, hparse]
  by_cases hmm : int4_unpack (bin.take 4) = gnt doc <;>
    simp [hmm, List.append_assoc]

theorem runLoop_succ {Doc : Type}
    (fs : List Byte → Except SocketError Doc) (gnt : Doc → Int)
    (nts : Int → String) (tfn : String → String → String)
    (fuel : Nat) (s : List Byte) (e : Effects) :
    runLoop fs gnt nts tfn (fuel + 1) s e =
      match process fs gnt nts tfn s e with
      | (.ok s1, e1) => runLoop fs gnt nts tfn fuel s1 e1
      | (.error err, e1) => some (err, e1) := rfl

theorem publishTriples_iamalive (nts : Int → String) (tfn : String → String → String)
    (triples : List (Int × List Byte × String)) (e : Effects) :
    (publishTriples nts tfn triples e).iamalive = e.iamalive := by
  induction triples generalizing e with
  | nil => rfl
  | cons t ts ih =>
    simp only [publishTriples, List.foldl_cons] at *
    rw [ih]

theorem processBody_iamalive {Doc : Type}
    (fs : List Byte → Except SocketError Doc) (gnt : Doc → Int)
    (nts : Int → String) (tfn : String → String → String)
    (bin voe txt : List Byte) (e : Effects) :
    (processBody fs gnt nts tfn bin voe txt e).2.iamalive = e.iamalive + 1 := by
  by_cases hmem : int4_unpack (bin.take 4) ∈ ignore_notice_types
  · rw [processBody_heartbeat fs gnt nts tfn bin voe txt e hmem]
  · cases hp : fs voe with
    | error err => rw [processBody_parse_error fs gnt nts tfn bin voe txt e err hmem hp]
    | ok doc =>
      rw [processBody_publish fs gnt nts tfn bin voe txt e doc hmem hp]

/-! ## Timed model of the per-frame deadline

`asyncio.wait_for(read(), timeout)` is armed when `process()` starts a
frame read.  Each stream byte carries its arrival time; the frame read
completes when its last byte has arrived, and `wait_for` cancels it
with `TimeoutError` when that happens later than `t0 + timeout`.  The
loop re-enters `process()` right after a frame completes, so the next
frame's deadline is armed at that frame's completion time. -/

/-- A timed stream: each byte paired with its arrival time. -/
abbrev TimedStream := List (Nat × Byte)

/-- Arrival time of the last of the first `c` bytes of the timed
stream (`t0` when there are none). -/
def lastArrival (t0 : Nat) (c : Nat) (ts : TimedStream) : Nat :=
  ((ts.take c).map Prod.fst).foldl (fun a b => max a b) t0

/-- The default of `client_connected`'s `timeout` parameter. -/
def default_timeout : Nat := 90

/-- `asyncio.wait_for(read(), timeout)` for a frame read started at
`t0`: yield the three segments, the completion time and the rest of
the timed stream, or `TimeoutError` when the frame's last byte arrives
after the deadline `t0 + timeout`. -/
def read_timed (timeout t0 : Nat) (ts : TimedStream) :
    Except SocketError ((List Byte × List Byte × List Byte) × Nat × TimedStream) :=
  match read (ts.map Prod.snd) with
  | .error err => .error err
  | .ok (tri, restBytes) =>
    if t0 + timeout < lastArrival t0 (ts.length - restBytes.length) ts then
      .error .timeoutError
    else
      .ok (tri, lastArrival t0 (ts.length - restBytes.length) ts,
        ts.drop (ts.length - restBytes.length))

/-- `process()` over the timed stream: the deadline-guarded frame read
followed by the same body. -/
def process_timed {Doc : Type}
    (fromstring : List Byte → Except SocketError Doc) (gnt : Doc → Int)
    (nts : Int → String) (tfn : String → String → String)
    (timeout t0 : Nat) (ts : TimedStream) (e : Effects) :
    Except SocketError (Nat × TimedStream) × Effects :=
  match read_timed timeout t0 ts with
  | .error err => (.error err, e)
  | .ok ((bin_data, voe_data, txt_data), tEnd, ts1) =>
    match processBody fromstring gnt nts tfn bin_data voe_data txt_data e with
    | (none, e') => (.ok (tEnd, ts1), e')
    | (some err, e') => (.error err, e')

/-- The connection loop over the timed stream: each new frame read is
started (and its deadline armed) at the completion time of the
previous frame. -/
def runLoopTimed {Doc : Type}
    (fromstring : List Byte → Except SocketError Doc) (gnt : Doc → Int)
    (nts : Int → String) (tfn : String → String → String) (timeout : Nat) :
    Nat → Nat → TimedStream → Effects → Option (SocketError × Effects)
  | 0, _, _, _ => none
  | fuel + 1, t0, ts, e =>
    match process_timed fromstring gnt nts tfn timeout t0 ts e with
    | (.ok (tEnd, ts1), e1) => runLoopTimed fromstring gnt nts tfn timeout fuel tEnd ts1 e1
    | (.error err, e1) => some (err, e1)

theorem runLoopTimed_succ {Doc : Type}
    (fs : List Byte → Except SocketError Doc) (gnt : Doc → Int)
    (nts : Int → String) (tfn : String → String → String)
    (timeout fuel t0 : Nat) (ts : TimedStream) (e : Effects) :
    runLoopTimed fs gnt nts tfn timeout (fuel + 1) t0 ts e =
      match process_timed fs gnt nts tfn timeout t0 ts e with
      | (.ok (tEnd, ts1), e1) => runLoopTimed fs gnt nts tfn timeout fuel tEnd ts1 e1
      | (.error err, e1) => some (err, e1) := rfl

/-! ## Concrete data for witnesses -/

/-- A concrete non-heartbeat frame: type code 100, VOEvent bytes
`<a/>`, text byte `!`. -/
def exFrame : List Byte := encodeFrame (mkHeader 100) [60, 97, 47, 62] [33]

/-- A concrete heartbeat frame (`IM_ALIVE` is code 3 here) whose
VOEvent segment `[60]` (a lone `<`) is not well-formed XML. -/
def hbFrame : List Byte := encodeFrame (mkHeader 3) [60] []

/-- A parser that accepts anything as a document with notice type
100. -/
def fs0 : List Byte → Except SocketError Int := fun _ => .ok 100

/-- A parser that accepts anything as a document with notice type
101. -/
def fs1 : List Byte → Except SocketError Int := fun _ => .ok 101

/-- A parser that rejects everything, as `lxml.etree.fromstring` does
on malformed XML. -/
def fsBad : List Byte → Except SocketError Int := fun _ => .error .xmlSyntaxError

/-- A concrete classifier. -/
def nts0 : Int → String := fun i => toString i

/-- A concrete topic map. -/
def tfn0 : String → String → String := fun name flavor => name ++ "." ++ flavor

/-- The heartbeat frame as a timed stream, every byte arriving at time
5. -/
def tsHeartbeat : TimedStream := hbFrame.map (fun b => (5, b))

/-! ## Claims -/

/-- C1: for every frame whose binary type code is not in the heartbeat
set and whose VOEvent segment parses as XML, the handler makes exactly
three publish submissions, one per flavor in binary, voevent, text,
each with payload equal to that flavor's segment bytes and each to the
topic computed by the topic function from that flavor's canonical
notice-type name and the flavor (binary and text are classified by the
binary-derived code, voevent by the XML-derived code). -/
theorem process_nonheartbeat_publishes_three {Doc : Type}
    (fs : List Byte → Except SocketError Doc) (gnt : Doc → Int)
    (nts : Int → String) (tfn : String → String → String)
    (s s1 bin voe txt : List Byte) (e : Effects) (doc : Doc)
    (hread : read s = .ok ((bin, voe, txt), s1))
    (hmem : int4_unpack (bin.take 4) ∉ ignore_notice_types)
    (hparse : fs voe = .ok doc) :
    (process fs gnt nts tfn s e).1 = .ok s1 ∧
    (process fs gnt nts tfn s e).2.produced = e.produced ++
      [(tfn (nts (int4_unpack (bin.take 4))) "binary", bin),
       (tfn (nts (gnt doc)) "voevent", voe),
       (tfn (nts (int4_unpack (bin.take 4))) "text", txt)] := by
  unfold process
  rw [hread]
  dsimp only
  rw [processBody_publish fs gnt nts tfn bin voe txt e doc hmem hparse]
  exact ⟨rfl, rfl⟩

theorem process_nonheartbeat_publishes_three_witness :
    read exFrame = .ok ((mkHeader 100, [60, 97, 47, 62], [33]), []) ∧
    int4_unpack ((mkHeader 100).take 4) ∉ ignore_notice_types ∧
    fs0 [60, 97, 47, 62] = .ok 100 ∧
    ((process fs0 id nts0 tfn0 exFrame Effects.init).1 = .ok [] ∧
     (process fs0 id nts0 tfn0 exFrame Effects.init).2.produced = Effects.init.produced ++
       [(tfn0 (nts0 (int4_unpack ((mkHeader 100).take 4))) "binary", mkHeader 100),
        (tfn0 (nts0 (id (100 : Int))) "voevent", [60, 97, 47, 62]),
        (tfn0 (nts0 (int4_unpack ((mkHeader 100).take 4))) "text", [33])]) :=
  ⟨rfl, by decide, rfl,
    process_nonheartbeat_publishes_three fs0 id nts0 tfn0 exFrame []
      (mkHeader 100) [60, 97, 47, 62] [33] Effects.init 100 rfl (by decide) rfl⟩

/-- C2 is false on the code: the handler has no distinct PeerClosed
outcome.  A stream closed with zero bytes and a non-empty stream
closed mid-frame (here: a full header plus a VOEvent length prefix of
160, a prefix of a well-formed frame) produce the very same value from
the frame reader — the same `asyncio.IncompleteReadError` — so no
empty/non-empty distinction is made. -/
theorem empty_and_midframe_close_same_error :
    (List.replicate 160 0 ++ [0, 0, 0, 160] : List Byte) ≠ [] ∧
    encodeFrame (List.replicate 160 0) (List.replicate 160 1) [] =
      (List.replicate 160 0 ++ [0, 0, 0, 160]) ++ (List.replicate 160 1 ++ be4 0) ∧
    read (List.replicate 160 0 ++ [0, 0, 0, 160]) = read [] :=
  ⟨by decide, rfl, rfl⟩

/-- C2 (amended): a stream closing at a proper prefix of a frame
always surfaces as the same exception type, `IncompleteReadError`,
whether zero bytes arrived (`incompleteRead [] 160` from the header
read) or a complete 160-byte header arrived (`incompleteRead [] 4`
from the first length-prefix read); the handler treats both as the
same kind of failure and does not single out the zero-byte close as a
distinct, non-error PeerClosed outcome. -/
theorem close_before_segment_incompleteRead (H : List Byte) (hH : H.length = 160) :
    read [] = .error (.incompleteRead [] 160) ∧
    read H = .error (.incompleteRead [] 4) := by
  refine ⟨rfl, ?_⟩
  have h1 : readexactly bin_len H = .ok (H, []) := by
    have h2 := readexactly_append bin_len H [] hH
    simpa using h2
  rw [read, h1]
  dsimp only
  rw [readexactly_short int4_size [] (by decide)]
  rfl

theorem close_before_segment_incompleteRead_witness :
    (List.replicate 160 0 : List Byte).length = 160 ∧
    read [] = .error (.incompleteRead [] 160) ∧
    read (List.replicate 160 0) = .error (.incompleteRead [] 4) :=
  ⟨by decide,
    (close_before_segment_incompleteRead (List.replicate 160 0) (by decide)).1,
    (close_before_segment_incompleteRead (List.replicate 160 0) (by decide)).2⟩

/-- C3 is false for a VOEvent segment of length 2^31 = 2147483648: its
4-byte big-endian length prefix is `[128, 0, 0, 0]`, which the signed
decode `int4.unpack` turns into −2^31, and `readexactly` of a negative
count raises `ValueError` — the frame is not read back as `(H, V, X)`. -/
theorem read_len_two_pow_31 (H V X : List Byte) (hH : H.length = 160)
    (hV : V.length = 2147483648) :
    read (encodeFrame H V X) = .error .valueError := by
  have hb : be4 V.length = [128, 0, 0, 0] := by rw [hV]; decide
  rw [encodeFrame, read, hb]
  simp only [List.append_assoc]
  rw [readexactly_append bin_len H _ hH]
  dsimp only
  rw [readexactly_append int4_size [128, 0, 0, 0] _ rfl]
  dsimp only
  have hu : int4_unpack [128, 0, 0, 0] = -2147483648 := rfl
  rw [hu, readexactlyI, if_pos (by decide)]

theorem roundtrip_fails_at_two_pow_31 :
    read (encodeFrame (List.replicate 160 0) (List.replicate 2147483648 0) []) =
      .error .valueError :=
  read_len_two_pow_31 (List.replicate 160 0) (List.replicate 2147483648 0) []
    (by rw [List.length_replicate]) (by rw [List.length_replicate])

/-- C3 (amended): the round trip holds for every header of length 160
and all VOEvent/text segments whose lengths are representable as
nonnegative signed 32-bit values (< 2^31 = 2147483648): the frame
reader returns exactly `(H, V, X)` and consumes exactly the encoded
bytes, leaving any following bytes unread. -/
theorem read_roundtrip_bounded (H V X r : List Byte) (hH : H.length = 160)
    (hV : V.length < 2147483648) (hX : X.length < 2147483648) :
    read (encodeFrame H V X ++ r) = .ok ((H, V, X), r) :=
  read_encode H V X r hH hV hX

theorem read_roundtrip_bounded_witness :
    (mkHeader 7).length = 160 ∧
    ([1, 2] : List Byte).length < 2147483648 ∧
    ([3] : List Byte).length < 2147483648 ∧
    read (encodeFrame (mkHeader 7) [1, 2] [3] ++ [9]) =
      .ok ((mkHeader 7, [1, 2], [3]), [9]) :=
  ⟨by decide, by decide, by decide,
    read_roundtrip_bounded (mkHeader 7) [1, 2] [3] [9] (by decide) (by decide) (by decide)⟩

/-- C4: for every frame whose binary type code is in the heartbeat
set, processing makes zero publish submissions, increments the
heartbeat counter by exactly one, does not classify the other
encodings (the result is the same for every parser and XML
notice-type extractor), and the handler returns to awaiting the next
frame — the loop continues on the remaining stream. -/
theorem process_heartbeat_skips_publish {Doc : Type}
    (fs : List Byte → Except SocketError Doc) (gnt : Doc → Int)
    (nts : Int → String) (tfn : String → String → String)
    (fuel : Nat) (s s1 bin voe txt : List Byte) (e : Effects)
    (hread : read s = .ok ((bin, voe, txt), s1))
    (hmem : int4_unpack (bin.take 4) ∈ ignore_notice_types) :
    process fs gnt nts tfn s e = (.ok s1, { e with iamalive := e.iamalive + 1 }) ∧
    (∀ {Doc' : Type} (fs' : List Byte → Except SocketError Doc') (gnt' : Doc' → Int),
      process fs' gnt' nts tfn s e = process fs gnt nts tfn s e) ∧
    runLoop fs gnt nts tfn (fuel + 1) s e =
      runLoop fs gnt nts tfn fuel s1 { e with iamalive := e.iamalive + 1 } := by
  have key : ∀ {D : Type} (f : List Byte → Except SocketError D) (g : D → Int),
      process f g nts tfn s e = (.ok s1, { e with iamalive := e.iamalive + 1 }) := by
    intro D f g
    unfold process
    rw [hread]
    dsimp only
    rw [processBody_heartbeat f g nts tfn bin voe txt e hmem]
  refine ⟨key fs gnt, fun fs' gnt' => by rw [key fs' gnt', key fs gnt], ?_⟩
  rw [runLoop_succ, key fs gnt]

theorem process_heartbeat_skips_publish_witness :
    read hbFrame = .ok ((mkHeader 3, [60], []), []) ∧
    int4_unpack ((mkHeader 3).take 4) ∈ ignore_notice_types ∧
    (process fs0 id nts0 tfn0 hbFrame Effects.init =
        (.ok [], { Effects.init with iamalive := Effects.init.iamalive + 1 }) ∧
     (∀ {Doc' : Type} (fs' : List Byte → Except SocketError Doc') (gnt' : Doc' → Int),
       process fs' gnt' nts0 tfn0 hbFrame Effects.init =
         process fs0 id nts0 tfn0 hbFrame Effects.init) ∧
     runLoop fs0 id nts0 tfn0 1 hbFrame Effects.init =
       runLoop fs0 id nts0 tfn0 0 [] { Effects.init with iamalive := Effects.init.iamalive + 1 }) :=
  ⟨rfl, by decide,
    process_heartbeat_skips_publish fs0 id nts0 tfn0 0 hbFrame []
      (mkHeader 3) [60] [] Effects.init rfl (by decide)⟩

/-- C5 is false on the code: `metrics.iamalive.inc()` runs right after
every successful frame read, before the heartbeat membership test, so
the counter also increments on a non-heartbeat frame (here a frame of
type code 100, which is not in the heartbeat set). -/
theorem iamalive_incremented_on_nonheartbeat :
    int4_unpack ((mkHeader 100).take 4) ∉ ignore_notice_types ∧
    (process fs0 id nts0 tfn0 exFrame Effects.init).2.iamalive = 1 :=
  ⟨by decide, rfl⟩

/-- C5 (amended): the counter behind `metrics.iamalive` counts every
successfully read frame, heartbeat or not: whenever the frame read
succeeds it increments by exactly one, and when the read fails it is
unchanged. -/
theorem iamalive_counts_every_frame {Doc : Type}
    (fs : List Byte → Except SocketError Doc) (gnt : Doc → Int)
    (nts : Int → String) (tfn : String → String → String)
    (s : List Byte) (e : Effects) :
    (process fs gnt nts tfn s e).2.iamalive =
      (match read s with
       | .ok _ => e.iamalive + 1
       | .error _ => e.iamalive) := by
  unfold process
  cases hr : read s with
  | error err => rfl
  | ok v =>
    obtain ⟨⟨bin, voe, txt⟩, s1⟩ := v
    dsimp only
    have hb := processBody_iamalive fs gnt nts tfn bin voe txt e
    rcases hpb : processBody fs gnt nts tfn bin voe txt e with ⟨o, e1⟩
    rw [hpb] at hb
    cases o <;> simpa using hb

/-- C6: for every non-heartbeat frame whose VOEvent segment fails to
parse, the exception propagates with zero publish submissions for that
notice, the read loop terminates, and the socket is closed — the
failure is connection-fatal, not skipped. -/
theorem malformed_voevent_closes_connection {Doc : Type}
    (fs : List Byte → Except SocketError Doc) (gnt : Doc → Int)
    (nts : Int → String) (tfn : String → String → String)
    (fuel : Nat) (s s1 bin voe txt : List Byte) (e : Effects) (err : SocketError)
    (hread : read s = .ok ((bin, voe, txt), s1))
    (hmem : int4_unpack (bin.take 4) ∉ ignore_notice_types)
    (hparse : fs voe = .error err) :
    process fs gnt nts tfn s e = (.error err, { e with iamalive := e.iamalive + 1 }) ∧
    client_connected_cb fs gnt nts tfn (fuel + 1) s =
      some ⟨err, { Effects.init with iamalive := 1 }, ConnState.Closed, true⟩ := by
  have key : ∀ e' : Effects,
      process fs gnt nts tfn s e' = (.error err, { e' with iamalive := e'.iamalive + 1 }) := by
    intro e'
    unfold process
    rw [hread]
    dsimp only
    rw [processBody_parse_error fs gnt nts tfn bin voe txt e' err hmem hparse]
  refine ⟨key e, ?_⟩
  unfold client_connected_cb
  rw [runLoop_succ, key Effects.init]
  rfl

theorem malformed_voevent_closes_connection_witness :
    read (encodeFrame (mkHeader 100) [60] []) = .ok ((mkHeader 100, [60], []), []) ∧
    int4_unpack ((mkHeader 100).take 4) ∉ ignore_notice_types ∧
    fsBad [60] = .error .xmlSyntaxError ∧
    (process fsBad id nts0 tfn0 (encodeFrame (mkHeader 100) [60] []) Effects.init =
        (.error .xmlSyntaxError,
         { Effects.init with iamalive := Effects.init.iamalive + 1 }) ∧
     client_connected_cb fsBad id nts0 tfn0 1 (encodeFrame (mkHeader 100) [60] []) =
       some ⟨.xmlSyntaxError, { Effects.init with iamalive := 1 }, ConnState.Closed, true⟩) :=
  ⟨rfl, by decide, rfl,
    malformed_voevent_closes_connection fsBad id nts0 tfn0 0
      (encodeFrame (mkHeader 100) [60] []) [] (mkHeader 100) [60] []
      Effects.init .xmlSyntaxError rfl (by decide) rfl⟩

/-- C7: a binary/XML notice-type disagreement does not fail the
notice: processing succeeds, the mismatch warning is logged, the
binary and text publishes go to the topic derived from the
binary-derived code's canonical name, and the voevent publish goes to
the topic derived from the XML-derived code's canonical name. -/
theorem type_mismatch_routes_per_flavor {Doc : Type}
    (fs : List Byte → Except SocketError Doc) (gnt : Doc → Int)
    (nts : Int → String) (tfn : String → String → String)
    (s s1 bin voe txt : List Byte) (e : Effects) (doc : Doc)
    (hread : read s = .ok ((bin, voe, txt), s1))
    (hmem : int4_unpack (bin.take 4) ∉ ignore_notice_types)
    (hparse : fs voe = .ok doc)
    (hne : int4_unpack (bin.take 4) ≠ gnt doc) :
    (process fs gnt nts tfn s e).1 = .ok s1 ∧
    (process fs gnt nts tfn s e).2.warned =
      e.warned ++ [(int4_unpack (bin.take 4), gnt doc)] ∧
    (process fs gnt nts tfn s e).2.produced = e.produced ++
      [(tfn (nts (int4_unpack (bin.take 4))) "binary", bin),
       (tfn (nts (gnt doc)) "voevent", voe),
       (tfn (nts (int4_unpack (bin.take 4))) "text", txt)] := by
  have hp := processBody_publish fs gnt nts tfn bin voe txt e doc hmem hparse
  rw [if_neg hne] at hp
  unfold process
  rw [hread]
  dsimp only
  rw [hp]
  exact ⟨rfl, rfl, rfl⟩

theorem type_mismatch_routes_per_flavor_witness :
    read exFrame = .ok ((mkHeader 100, [60, 97, 47, 62], [33]), []) ∧
    int4_unpack ((mkHeader 100).take 4) ∉ ignore_notice_types ∧
    fs1 [60, 97, 47, 62] = .ok 101 ∧
    int4_unpack ((mkHeader 100).take 4) ≠ id (101 : Int) ∧
    ((process fs1 id nts0 tfn0 exFrame Effects.init).1 = .ok [] ∧
     (process fs1 id nts0 tfn0 exFrame Effects.init).2.warned =
       Effects.init.warned ++ [(int4_unpack ((mkHeader 100).take 4), id (101 : Int))] ∧
     (process fs1 id nts0 tfn0 exFrame Effects.init).2.produced = Effects.init.produced ++
       [(tfn0 (nts0 (int4_unpack ((mkHeader 100).take 4))) "binary", mkHeader 100),
        (tfn0 (nts0 (id (101 : Int))) "voevent", [60, 97, 47, 62]),
        (tfn0 (nts0 (int4_unpack ((mkHeader 100).take 4))) "text", [33])]) :=
  ⟨rfl, by decide, rfl, by decide,
    type_mismatch_routes_per_flavor fs1 id nts0 tfn0 exFrame []
      (mkHeader 100) [60, 97, 47, 62] [33] Effects.init 101 rfl (by decide) rfl (by decide)⟩

/-- C8: `wait_for`'s deadline is armed when the frame read starts at
`t0` and covers all three segments: if the frame's last byte arrives
after `t0 + timeout`, the read yields `TimeoutError` and the loop
stops there with no retry and no effects from that frame; otherwise
the frame is processed and the loop arms the next frame's deadline at
this frame's completion time (not at the connection's start), so the
deadline resets per frame. -/
theorem wait_for_deadline_per_frame {Doc : Type}
    (fs : List Byte → Except SocketError Doc) (gnt : Doc → Int)
    (nts : Int → String) (tfn : String → String → String)
    (timeout t0 fuel : Nat) (ts : TimedStream) (e : Effects)
    (bin voe txt restBytes : List Byte)
    (hread : read (ts.map Prod.snd) = .ok ((bin, voe, txt), restBytes)) :
    (t0 + timeout < lastArrival t0 (ts.length - restBytes.length) ts →
      process_timed fs gnt nts tfn timeout t0 ts e = (.error .timeoutError, e) ∧
      runLoopTimed fs gnt nts tfn timeout (fuel + 1) t0 ts e =
        some (.timeoutError, e)) ∧
    (lastArrival t0 (ts.length - restBytes.length) ts ≤ t0 + timeout →
      runLoopTimed fs gnt nts tfn timeout (fuel + 1) t0 ts e =
        (match processBody fs gnt nts tfn bin voe txt e with
         | (none, e1) => runLoopTimed fs gnt nts tfn timeout fuel
             (lastArrival t0 (ts.length - restBytes.length) ts)
             (ts.drop (ts.length - restBytes.length)) e1
         | (some err, e1) => some (err, e1))) := by
  constructor
  · intro hlate
    have hrt : read_timed timeout t0 ts = .error .timeoutError := by
      unfold read_timed
      rw [hread]
      dsimp only
      rw [if_pos hlate]
    have hpt : process_timed fs gnt nts tfn timeout t0 ts e = (.error .timeoutError, e) := by
      unfold process_timed
      rw [hrt]
    exact ⟨hpt, by rw [runLoopTimed_succ, hpt]⟩
  · intro hok
    have hrt : read_timed timeout t0 ts =
        .ok ((bin, voe, txt), lastArrival t0 (ts.length - restBytes.length) ts,
          ts.drop (ts.length - restBytes.length)) := by
      unfold read_timed
      rw [hread]
      dsimp only
      rw [if_neg (by omega)]
    rw [runLoopTimed_succ]
    unfold process_timed
    rw [hrt]
    dsimp only
    rcases hpb : processBody fs gnt nts tfn bin voe txt e with ⟨o, e1⟩
    cases o <;> rfl

theorem wait_for_deadline_per_frame_witness :
    read (tsHeartbeat.map Prod.snd) = .ok ((mkHeader 3, [60], []), []) ∧
    ((0 + default_timeout < 5 →
        process_timed fs0 id nts0 tfn0 default_timeout 0 tsHeartbeat Effects.init =
          (.error .timeoutError, Effects.init) ∧
        runLoopTimed fs0 id nts0 tfn0 default_timeout 1 0 tsHeartbeat Effects.init =
          some (.timeoutError, Effects.init)) ∧
     (5 ≤ 0 + default_timeout →
        runLoopTimed fs0 id nts0 tfn0 default_timeout 1 0 tsHeartbeat Effects.init =
          runLoopTimed fs0 id nts0 tfn0 default_timeout 0 5 []
            { Effects.init with iamalive := 1 })) :=
  ⟨rfl,
    wait_for_deadline_per_frame fs0 id nts0 tfn0 default_timeout 0 0 tsHeartbeat
      Effects.init (mkHeader 3) [60] [] [] rfl⟩

/-- C9 is false on the code: there is no size cap and no
OversizedSegment failure.  With a VOEvent length prefix of 100000000
(about 100 MB, past any "tens of megabytes" bound) and no further
bytes, the reader attempts the full 100000000-byte read and fails only
because the stream ends, with `IncompleteReadError` expecting
100000000 bytes. -/
theorem no_oversized_segment_guard :
    read (List.replicate 160 0 ++ [5, 245, 225, 0]) =
      .error (.incompleteRead [] 100000000) := rfl

/-- C9 (amended): the Frame Reader imposes no upper bound on segment
length: for every nonnegative length prefix value `n` (up to the
signed 32-bit maximum) it attempts to read exactly `n` bytes, and on a
stream that ends right after the prefix it fails with the stream-end
`IncompleteReadError` expecting all `n` bytes — there is no
OversizedSegment error anywhere in the handler. -/
theorem read_attempts_full_prefixed_length (H : List Byte) (n : Nat)
    (hH : H.length = 160) (h0 : 0 < n) (hn : n < 2147483648) :
    read (H ++ be4 n) = .error (.incompleteRead [] n) := by
  have e1 : H ++ be4 n = H ++ (be4 n ++ ([] : List Byte)) := by simp
  rw [e1, read, readexactly_append bin_len H _ hH]
  dsimp only
  rw [readexactly_append int4_size (be4 n) [] (be4_length n)]
  dsimp only
  rw [int4_unpack_be4 n hn, readexactlyI_natCast,
    readexactly_short n [] (by simpa using h0)]

theorem read_attempts_full_prefixed_length_witness :
    (List.replicate 160 0 : List Byte).length = 160 ∧
    0 < 100000000 ∧ 100000000 < 2147483648 ∧
    read (List.replicate 160 0 ++ be4 100000000) =
      .error (.incompleteRead [] 100000000) :=
  ⟨by decide, by decide, by decide,
    read_attempts_full_prefixed_length (List.replicate 160 0) 100000000
      (by decide) (by decide) (by decide)⟩

/-- C10: a heartbeat frame's VOEvent segment is never parsed — even
with a parser that rejects the payload, processing succeeds with no
publish submissions, and the loop goes on to the next frame instead of
terminating the connection. -/
theorem heartbeat_skips_xml_parse {Doc : Type}
    (fs : List Byte → Except SocketError Doc) (gnt : Doc → Int)
    (nts : Int → String) (tfn : String → String → String)
    (fuel : Nat) (s s1 bin voe txt : List Byte) (e : Effects) (err : SocketError)
    (hread : read s = .ok ((bin, voe, txt), s1))
    (hmem : int4_unpack (bin.take 4) ∈ ignore_notice_types)
    (hbad : fs voe = .error err) :
    process fs gnt nts tfn s e = (.ok s1, { e with iamalive := e.iamalive + 1 }) ∧
    runLoop fs gnt nts tfn (fuel + 1) s e =
      runLoop fs gnt nts tfn fuel s1 { e with iamalive := e.iamalive + 1 } := by
  have hp : process fs gnt nts tfn s e =
      (.ok s1, { e with iamalive := e.iamalive + 1 }) := by
    unfold process
    rw [hread]
    dsimp only
    rw [processBody_heartbeat fs gnt nts tfn bin voe txt e hmem]
  exact ⟨hp, by rw [runLoop_succ, hp]⟩

theorem heartbeat_skips_xml_parse_witness :
    read hbFrame = .ok ((mkHeader 3, [60], []), []) ∧
    int4_unpack ((mkHeader 3).take 4) ∈ ignore_notice_types ∧
    fsBad [60] = .error .xmlSyntaxError ∧
    (process fsBad id nts0 tfn0 hbFrame Effects.init =
        (.ok [], { Effects.init with iamalive := Effects.init.iamalive + 1 }) ∧
     runLoop fsBad id nts0 tfn0 1 hbFrame Effects.init =
       runLoop fsBad id nts0 tfn0 0 []
         { Effects.init with iamalive := Effects.init.iamalive + 1 }) :=
  ⟨rfl, by decide, rfl,
    heartbeat_skips_xml_parse fsBad id nts0 tfn0 0 hbFrame []
      (mkHeader 3) [60] [] Effects.init .xmlSyntaxError rfl (by decide) rfl⟩

end GCN
